import Mathlib

/-
  Verification development for the growth-coin economic engine:
  the append-only coin ledger, the multi-factor reward calculator
  (CoinCalculationEngine), and the scheduled decay-rule engine
  (CoinDecayService).

  Modelling conventions:
  - Monetary amounts and balances are rationals (the source uses JS numbers;
    decay rates such as 0.2 and difficulty coefficients such as 2.0 are
    fractional, all arithmetic on them is exact in the inputs exercised here).
  - Dates are integers counting days (the source stores DATE columns and
    compares them by day; getDaysSince floors a millisecond difference to
    whole days, which at day granularity is subtraction of day numbers).
  - A table ordered by created_at DESC is a list with the newest row first;
    appending a row conses it onto the front.
  - The only key of the free-form metadata map that the engine ever reads
    back is rule_id (the decay idempotency filter), so ledger entries carry
    an Option String rule_id in place of the metadata blob.
-/

namespace GrowthBank

/-- One immutable row of the coin_ledger table: a signed delta, the balance
snapshot after it, and the classification columns the engine filters on. -/
structure LedgerEntry where
  user_id : String
  amount : ℚ
  balance_after : ℚ
  change_type : String
  source_type : String
  reference_id : String
  description : String
  rule_id : Option String
  deriving Repr, DecidableEq

/-- The coin ledger, newest entry first (ORDER BY created_at DESC). -/
abbrev Ledger := List LedgerEntry

/-- The rows of the ledger belonging to one user, newest first. -/
def userEntries (l : Ledger) (u : String) : List LedgerEntry :=
  l.filter (fun e => e.user_id == u)

/-- CoinCalculationEngine.getCurrentBalance: the balance_after of the user's
most recent entry, or 0 when the user has none. -/
def getCurrentBalance (l : Ledger) (u : String) : ℚ :=
  match userEntries l u with
  | [] => 0
  | e :: _ => e.balance_after

/-- CoinCalculationEngine.recordCoinTransaction: read the current balance,
compute the new snapshot, and insert the row.  No balance check of any kind
is performed. -/
def recordCoinTransaction (l : Ledger) (userId : String) (amount : ℚ)
    (changeType sourceType referenceId description : String)
    (ruleId : Option String) : Ledger :=
  { user_id := userId
    amount := amount
    balance_after := getCurrentBalance l userId + amount
    change_type := changeType
    source_type := sourceType
    reference_id := referenceId
    description := description
    rule_id := ruleId } :: l

/-- Sum of the signed amounts of a list of entries. -/
def sumAmounts (es : List LedgerEntry) : ℚ :=
  (es.map (fun e => e.amount)).sum

/-- Balance-trail check on a newest-first entry list: each entry's snapshot
equals the previous (older) entry's snapshot plus its amount, the oldest
entry starting from balance 0. -/
def chainOk : List LedgerEntry → Bool
  | [] => true
  | [e] => e.balance_after == e.amount
  | e :: f :: rest =>
    (e.balance_after == f.balance_after + e.amount) && chainOk (f :: rest)

/-- Ledgers reachable by the program: every write to coin_ledger in the
repository goes through recordCoinTransaction. -/
inductive Reachable : Ledger → Prop where
  | nil : Reachable []
  | step (l : Ledger) (userId : String) (amount : ℚ)
      (changeType sourceType referenceId description : String)
      (ruleId : Option String) :
      Reachable l →
      Reachable (recordCoinTransaction l userId amount changeType sourceType
        referenceId description ruleId)

/-- CoinService.redeemReward: the only caller of the append that performs a
balance pre-check; on insufficient balance it throws and writes nothing. -/
def redeemReward (l : Ledger) (userId rewardId : String) (coinsCost : ℚ)
    (description : String) : Except String Ledger :=
  if getCurrentBalance l userId < coinsCost then
    Except.error ("Insufficient coin balance")
  else
    Except.ok (recordCoinTransaction l userId (-coinsCost) ("redeemed")
      ("reward") rewardId description (none))

/-- CoinService.adjustCoins: an admin adjustment is recorded unconditionally,
classified bonus when positive and penalty otherwise. -/
def adjustCoins (l : Ledger) (userId : String) (amount : ℚ)
    (reason adminId : String) : Ledger :=
  recordCoinTransaction l userId amount
    (if 0 < amount then ("bonus") else ("penalty"))
    ("admin_adjustment") adminId reason (none)

/-- A row of the task_definitions catalog. -/
structure Task where
  task_id : String
  subject : String
  task_type : String
  base_coin : ℕ
  is_active : Bool
  deriving Repr, DecidableEq

/-- A row of the difficulties catalog. -/
structure Difficulty where
  difficulty_id : String
  label : String
  coefficient : ℚ
  is_active : Bool
  deriving Repr, DecidableEq

/-- A row of the learning_sessions table (the columns this engine reads). -/
structure Session where
  session_id : String
  user_id : String
  task_id : String
  session_date : ℤ
  status : String
  total_coins : ℚ
  deriving Repr, DecidableEq

/-- CoinCalculationEngine.calculateFocusCoins: 0 below the 5-minute
activation, otherwise one coin per started-and-finished 30-minute unit. -/
def calculateFocusCoins (focusTimeMinutes : ℕ) : ℕ :=
  if focusTimeMinutes < 5 then 0 else focusTimeMinutes / 30

/-- CoinCalculationEngine.calculateResultCoins:
floor(quantity * base_coin * coefficient). -/
def calculateResultCoins (resultQuantity baseCoin : ℕ)
    (difficultyCoefficient : ℚ) : ℤ :=
  ⌊(resultQuantity : ℚ) * (baseCoin : ℚ) * difficultyCoefficient⌋

/-- Insert a date into a descending list of distinct dates. -/
def insertDateDesc (d : ℤ) : List ℤ → List ℤ
  | [] => [d]
  | e :: rest =>
    if d = e then e :: rest
    else if e < d then d :: e :: rest
    else e :: insertDateDesc d rest

/-- GROUP BY session_date ORDER BY session_date DESC over a bag of dates. -/
def distinctDatesDesc (ds : List ℤ) : List ℤ :=
  ds.foldr insertDateDesc []

/-- The user's distinct completed-session dates, newest first, LIMIT 30
(the read inside getConsecutiveLearningDays). -/
def recentSessionDates (sessions : List Session) (userId : String) : List ℤ :=
  (distinctDatesDesc
    ((sessions.filter
      (fun s => s.user_id == userId && s.status == ("completed"))).map
      (fun s => s.session_date))).take 30

/-- The backward walk of getConsecutiveLearningDays: starting from a count c,
keep extending while the next listed date is exactly today minus the count. -/
def streakWalk (today : ℤ) : List ℤ → ℕ → ℕ
  | [], c => c
  | d :: rest, c =>
    if d = today - (c : ℤ) then streakWalk today rest (c + 1) else c

/-- CoinCalculationEngine.getConsecutiveLearningDays: 1 when the user has no
completed session at all, otherwise the backward walk starting at 1. -/
def getConsecutiveLearningDays (sessions : List Session) (userId : String)
    (currentDate : ℤ) : ℕ :=
  match recentSessionDates sessions userId with
  | [] => 1
  | d :: rest => streakWalk currentDate (d :: rest) 1

/-- CoinCalculationEngine.calculateConsecutiveBonus: +10 for a streak of at
least 7 days, +5 for at least 3, else 0. -/
def calculateConsecutiveBonus (sessions : List Session) (userId : String)
    (sessionDate : ℤ) : ℕ :=
  let consecutiveDays := getConsecutiveLearningDays sessions userId sessionDate
  if 7 ≤ consecutiveDays then 10 else if 3 ≤ consecutiveDays then 5 else 0

/-- CoinCalculationEngine.calculateFirstTimeBonus: +5 when the user has no
completed session for this task. -/
def calculateFirstTimeBonus (sessions : List Session)
    (userId taskId : String) : ℕ :=
  if (sessions.find? (fun s =>
      s.user_id == userId && s.task_id == taskId &&
      s.status == ("completed"))).isSome
  then 0 else 5

/-- CoinCalculationEngine.calculateDifficultyBonus: +3 for the hard label,
+8 for the extreme label, else 0. -/
def calculateDifficultyBonus (difficultyLabel : String) : ℕ :=
  if difficultyLabel = ("困难") then 3
  else if difficultyLabel = ("极难") then 8
  else 0

/-- Number of the user's completed sessions on a given date. -/
def completedCountOn (sessions : List Session) (userId : String)
    (d : ℤ) : ℕ :=
  (sessions.filter (fun s =>
    s.user_id == userId && decide (s.session_date = d) &&
    s.status == ("completed"))).length

/-- CoinCalculationEngine.calculateDailyGoalBonus: +15 when the count of the
user's completed sessions on the date reaches the daily goal of 3. -/
def calculateDailyGoalBonus (sessions : List Session) (userId : String)
    (sessionDate : ℤ) : ℕ :=
  if 3 ≤ completedCountOn sessions userId sessionDate then 15 else 0

/-- JS Date.getDay for a day number counted from 1970-01-01 (a Thursday);
Sunday is 0 and Saturday is 6. -/
def dayOfWeek (d : ℤ) : ℤ := (d + 4) % 7

/-- CoinCalculationEngine.calculateWeekendBonus: +2 on Saturday or Sunday. -/
def calculateWeekendBonus (sessionDate : ℤ) : ℕ :=
  if dayOfWeek sessionDate = 0 ∨ dayOfWeek sessionDate = 6 then 2 else 0

/-- CoinCalculationEngine.calculateBonusCoins: the sum of the five bonus
rules (the source pushes the nonzero ones onto a list and sums it, which
yields the same total). -/
def calculateBonusCoins (sessions : List Session)
    (userId taskId difficultyLabel : String) (sessionDate : ℤ) : ℕ :=
  calculateConsecutiveBonus sessions userId sessionDate +
  calculateFirstTimeBonus sessions userId taskId +
  calculateDifficultyBonus difficultyLabel +
  calculateDailyGoalBonus sessions userId sessionDate +
  calculateWeekendBonus sessionDate

/-- The reward breakdown returned by calculateCoins. -/
structure CoinCalculationResult where
  focusCoins : ℕ
  resultCoins : ℤ
  bonusCoins : ℕ
  totalCoins : ℤ
  deriving Repr, DecidableEq

/-- CoinCalculationEngine.calculateCoins: look up the active task and
difficulty (failing like the source when absent or inactive), then combine
focus, result and bonus coins. -/
def calculateCoins (tasks : List Task) (difficulties : List Difficulty)
    (sessions : List Session) (userId taskId difficultyId : String)
    (focusTimeMinutes resultQuantity : ℕ) (sessionDate : ℤ) :
    Except String CoinCalculationResult :=
  match tasks.find? (fun t => t.task_id == taskId && t.is_active) with
  | none => Except.error ("Task not found or inactive")
  | some task =>
    match difficulties.find? (fun d =>
        d.difficulty_id == difficultyId && d.is_active) with
    | none => Except.error ("Difficulty not found or inactive")
    | some difficulty =>
      let focusCoins := calculateFocusCoins focusTimeMinutes
      let resultCoins :=
        calculateResultCoins resultQuantity task.base_coin
          difficulty.coefficient
      let bonusCoins :=
        calculateBonusCoins sessions userId taskId difficulty.label
          sessionDate
      Except.ok
        { focusCoins := focusCoins
          resultCoins := resultCoins
          bonusCoins := bonusCoins
          totalCoins := (focusCoins : ℤ) + resultCoins + (bonusCoins : ℤ) }

/-- A row of the coin_decay_rules configuration table.  The free-form
metadata is read back only through its emergency flag (the hourly
scheduler's filter), modelled as the Bool field emergency. -/
structure DecayRule where
  rule_id : String
  name : String
  threshold_days : ℕ
  decay_rate : ℚ
  decay_type : String
  applies_to : String
  scope_value : Option String
  is_active : Bool
  priority : ℤ
  emergency : Bool
  deriving Repr, DecidableEq

/-- CoinDecayService.getDaysSince at day granularity. -/
def getDaysSince (today sessionDate : ℤ) : ℤ := today - sessionDate

/-- The subject column joined from task_definitions (none on a join miss). -/
def sessionSubject (tasks : List Task) (s : Session) : Option String :=
  (tasks.find? (fun t => t.task_id == s.task_id)).map (fun t => t.subject)

/-- The task_type column joined from task_definitions. -/
def sessionTaskType (tasks : List Task) (s : Session) : Option String :=
  (tasks.find? (fun t => t.task_id == s.task_id)).map (fun t => t.task_type)

/-- The per-session branch of CoinDecayService.filterSessionsByRule. -/
def matchesRule (tasks : List Task) (r : DecayRule) (s : Session) : Bool :=
  if r.applies_to = ("subject") then sessionSubject tasks s == r.scope_value
  else if r.applies_to = ("task_type") then
    sessionTaskType tasks s == r.scope_value
  else true

/-- CoinDecayService.filterSessionsByRule. -/
def filterSessionsByRule (tasks : List Task) (sessions : List Session)
    (r : DecayRule) : List Session :=
  sessions.filter (matchesRule tasks r)

/-- CoinDecayService.getUserSessionsForDecay: the user's completed sessions
with positive total_coins inside the 90-day window. -/
def getUserSessionsForDecay (today : ℤ) (sessions : List Session)
    (userId : String) : List Session :=
  sessions.filter (fun s =>
    s.user_id == userId && s.status == ("completed") &&
    decide (0 < s.total_coins) && decide (today - 90 ≤ s.session_date))

/-- The idempotency filter of applyDecayToSession: a decayed entry of this
user referencing this session and produced by this rule. -/
def isDecayEntryFor (userId sessionId ruleId : String)
    (e : LedgerEntry) : Bool :=
  e.user_id == userId && e.change_type == ("decayed") &&
  e.reference_id == sessionId && e.rule_id == some ruleId

/-- A decayed entry referencing this session and produced by this rule,
regardless of user (the system-wide reading of the at-most-once property). -/
def isDecayEntryForPair (sessionId ruleId : String) (e : LedgerEntry) : Bool :=
  e.change_type == ("decayed") && e.reference_id == sessionId &&
  e.rule_id == some ruleId

/-- Number of ledger entries matching the user-keyed idempotency filter. -/
def decayEntryCount (l : Ledger) (userId sessionId ruleId : String) : ℕ :=
  (l.filter (isDecayEntryFor userId sessionId ruleId)).length

/-- Number of ledger entries that decay a given (session, rule) pair. -/
def decayPairCount (l : Ledger) (sessionId ruleId : String) : ℕ :=
  (l.filter (isDecayEntryForPair sessionId ruleId)).length

/-- The decay amount computed by applyDecayToSession (and by predictDecay):
floor(total_coins * rate) for a percentage rule, the raw rate for a fixed
rule, capped at the session's total coins. -/
def decayAmountFor (r : DecayRule) (s : Session) : ℚ :=
  min
    (if r.decay_type = ("percentage") then
      ((⌊s.total_coins * r.decay_rate⌋ : ℤ) : ℚ)
    else r.decay_rate)
    s.total_coins

/-- CoinDecayService.applyDecayToSession: skip when a matching decayed entry
already exists, otherwise record a negative entry when the capped amount is
positive. -/
def applyDecayToSession (userId : String) (s : Session) (r : DecayRule)
    (l : Ledger) : Ledger :=
  if (l.find? (isDecayEntryFor userId s.session_id r.rule_id)).isSome then l
  else
    let decayAmount := decayAmountFor r s
    if 0 < decayAmount then
      recordCoinTransaction l userId (-decayAmount) ("decayed")
        ("session_decay") s.session_id
        ("知识遗忘衰减 - " ++ r.name) (some r.rule_id)
    else l

/-- Insert a rule into a list sorted by descending priority. -/
def insertRuleByPriority (r : DecayRule) :
    List DecayRule → List DecayRule
  | [] => [r]
  | x :: rest =>
    if x.priority < r.priority then r :: x :: rest
    else x :: insertRuleByPriority r rest

/-- CoinDecayService.getActiveDecayRules: the active rules ordered by
descending priority. -/
def getActiveDecayRules (rules : List DecayRule) : List DecayRule :=
  (rules.filter (fun r => r.is_active)).foldr insertRuleByPriority []

/-- CoinDecayService.processUserDecay: for every rule, for every applicable
session of the user past the rule's threshold, apply the decay. -/
def processUserDecay (today : ℤ) (tasks : List Task)
    (sessions : List Session) (userId : String)
    (decayRules : List DecayRule) (l : Ledger) : Ledger :=
  let userSessions := getUserSessionsForDecay today sessions userId
  decayRules.foldl (fun acc r =>
    (filterSessionsByRule tasks userSessions r).foldl (fun acc2 s =>
      if (r.threshold_days : ℤ) ≤ getDaysSince today s.session_date then
        applyDecayToSession userId s r acc2
      else acc2) acc) l

/-- CoinDecayService.executeDecayProcess: process every active user with the
active rule set.  The active-user query is modelled by the users list. -/
def executeDecayProcess (today : ℤ) (tasks : List Task)
    (sessions : List Session) (users : List String)
    (rules : List DecayRule) (l : Ledger) : Ledger :=
  users.foldl (fun acc u =>
    processUserDecay today tasks sessions u (getActiveDecayRules rules) acc) l

/-- CoinDecayService.triggerDecay: scoped to one user when given, otherwise
the full cycle. -/
def triggerDecay (today : ℤ) (tasks : List Task) (sessions : List Session)
    (users : List String) (rules : List DecayRule)
    (userId : Option String) (l : Ledger) : Ledger :=
  match userId with
  | some u => processUserDecay today tasks sessions u
      (getActiveDecayRules rules) l
  | none => executeDecayProcess today tasks sessions users rules l

/-- CoinDecayService.shouldRunHourlyDecay: true when some active rule has
the emergency metadata flag. -/
def shouldRunHourlyDecay (rules : List DecayRule) : Bool :=
  (rules.find? (fun r => r.is_active && r.emergency)).isSome

/-- The hourly tick of CoinDecayService.startScheduler: when
shouldRunHourlyDecay answers true it runs the full executeDecayProcess,
otherwise it does nothing. -/
def hourlyDecayTick (today : ℤ) (tasks : List Task)
    (sessions : List Session) (users : List String)
    (rules : List DecayRule) (l : Ledger) : Ledger :=
  if shouldRunHourlyDecay rules then
    executeDecayProcess today tasks sessions users rules l
  else l

/-- One invocation of the decay engine (a scheduled runCycle or a manual
trigger), with the world state it observes: the clock, the catalog, the
session table, the active users and the rule configuration of that moment. -/
structure DecayInvocation where
  today : ℤ
  tasks : List Task
  sessions : List Session
  users : List String
  rules : List DecayRule
  target : Option String
  deriving Repr

/-- Run a sequence of decay-engine invocations against the ledger. -/
def runDecayOps : List DecayInvocation → Ledger → Ledger
  | [], l => l
  | op :: rest, l =>
    runDecayOps rest
      (triggerDecay op.today op.tasks op.sessions op.users op.rules
        op.target l)

/-- Every decayed entry is keyed by the user owning the session it
references (sessions are fetched per user, so the writer is the owner). -/
def DecayOwnership (owner : String → String) (l : Ledger) : Prop :=
  ∀ e ∈ l, e.change_type = ("decayed") → e.user_id = owner e.reference_id

/-- At most one decayed entry per (session, rule) pair, system-wide. -/
def PairAtMostOnce (l : Ledger) : Prop :=
  ∀ sessionId ruleId, decayPairCount l sessionId ruleId ≤ 1

/-
  Exception semantics of the cycle.  A store failure while applying one
  (user, rule, session) triple throws; the only try/catch sits in
  executeDecayProcess, around the whole of one user's processing
  (processUserDecay itself catches nothing).  The oracle fails answers
  whether applying a given (user, rule_id, session_id) triple throws; a
  throw happens before the write of that triple.  The Bool result reports
  whether the user's processing ran to completion.
-/

/-- The inner session loop of processUserDecay under the failure oracle:
a throw abandons the rest of the loop. -/
def runSessionsF (fails : String → String → String → Bool) (today : ℤ)
    (userId : String) (r : DecayRule) :
    List Session → Ledger → Ledger × Bool
  | [], l => (l, true)
  | s :: rest, l =>
    if (r.threshold_days : ℤ) ≤ getDaysSince today s.session_date then
      if fails userId r.rule_id s.session_id then (l, false)
      else runSessionsF fails today userId r rest
        (applyDecayToSession userId s r l)
    else runSessionsF fails today userId r rest l

/-- The rule loop of processUserDecay under the failure oracle: a throw in
one rule's session loop abandons the remaining rules too. -/
def runRulesF (fails : String → String → String → Bool) (today : ℤ)
    (tasks : List Task) (userSessions : List Session) (userId : String) :
    List DecayRule → Ledger → Ledger × Bool
  | [], l => (l, true)
  | r :: rest, l =>
    match runSessionsF fails today userId r
        (filterSessionsByRule tasks userSessions r) l with
    | (l2, true) => runRulesF fails today tasks userSessions userId rest l2
    | (l2, false) => (l2, false)

/-- processUserDecay under the failure oracle. -/
def processUserDecayF (fails : String → String → String → Bool) (today : ℤ)
    (tasks : List Task) (sessions : List Session) (userId : String)
    (decayRules : List DecayRule) (l : Ledger) : Ledger × Bool :=
  runRulesF fails today tasks (getUserSessionsForDecay today sessions userId)
    userId decayRules l

/-- executeDecayProcess under the failure oracle: each user's processing is
wrapped in try/catch, so the cycle keeps the writes made before a throw and
moves on to the next user. -/
def executeDecayProcessF (fails : String → String → String → Bool)
    (today : ℤ) (tasks : List Task) (sessions : List Session)
    (users : List String) (rules : List DecayRule) (l : Ledger) : Ledger :=
  users.foldl (fun acc u =>
    (processUserDecayF fails today tasks sessions u
      (getActiveDecayRules rules) acc).1) l

/-- One element of the list returned by predictDecay. -/
structure DecayPrediction where
  date : ℤ
  predictedDecay : ℚ
  affectedSessions : ℕ
  deriving Repr, DecidableEq

/-- The ledger read predictDecay uses as its idempotency check. -/
def hasDecayedInLedger (l : Ledger) (userId sessionId ruleId : String) :
    Bool :=
  (l.find? (isDecayEntryFor userId sessionId ruleId)).isSome

/-- The (rule, session) pairs predictDecay iterates, in loop order. -/
def predictPairs (tasks : List Task) (rules : List DecayRule)
    (sessions : List Session) : List (DecayRule × Session) :=
  rules.flatMap (fun r =>
    (filterSessionsByRule tasks sessions r).map (fun s => (r, s)))

/-- Whether predictDecay counts a (rule, session) pair at day offset i:
the aged session passes the rule's threshold and the ledger holds no
matching decayed entry. -/
def predictCounted (l : Ledger) (today : ℤ) (userId : String) (i : ℕ)
    (p : DecayRule × Session) : Bool :=
  decide ((p.1.threshold_days : ℤ) ≤
    getDaysSince today p.2.session_date + (i : ℤ)) &&
  !(hasDecayedInLedger l userId p.2.session_id p.1.rule_id)

/-- The body of predictDecay's loop for one future day offset i ≥ 1: the
accumulation of (predictedDecay, affectedSessions) over the pair loop is
rendered as sum and length over the counted pairs. -/
def predictDay (l : Ledger) (today : ℤ) (userId : String)
    (pairs : List (DecayRule × Session)) (i : ℕ) : DecayPrediction :=
  let counted := pairs.filter (predictCounted l today userId i)
  { date := today + (i : ℤ)
    predictedDecay := (counted.map (fun p => decayAmountFor p.1 p.2)).sum
    affectedSessions := counted.length }

/-- CoinDecayService.predictDecay: for each of the next days offsets, the
projected decay total and affected-session count, computed read-only
against the active rules, the user's decay window and the current ledger. -/
def predictDecay (l : Ledger) (today : ℤ) (tasks : List Task)
    (sessions : List Session) (rules : List DecayRule) (userId : String)
    (days : ℕ) : List DecayPrediction :=
  (List.range days).map (fun k =>
    predictDay l today userId
      (predictPairs tasks (getActiveDecayRules rules)
        (getUserSessionsForDecay today sessions userId))
      (k + 1))

/-
  Theorems.
-/

theorem userEntries_record (l : Ledger) (u v : String) (amount : ℚ)
    (ct st rid d : String) (mrid : Option String) :
    userEntries (recordCoinTransaction l u amount ct st rid d mrid) v =
      if u == v then
        { user_id := u, amount := amount,
          balance_after := getCurrentBalance l u + amount,
          change_type := ct, source_type := st, reference_id := rid,
          description := d, rule_id := mrid } :: userEntries l v
      else userEntries l v := by
  simp only [userEntries, recordCoinTransaction, List.filter_cons]

theorem getCurrentBalance_congr (l1 l2 : Ledger) (u : String)
    (h : userEntries l1 u = userEntries l2 u) :
    getCurrentBalance l1 u = getCurrentBalance l2 u := by
  unfold getCurrentBalance
  rw [h]

theorem getCurrentBalance_of_nil (l : Ledger) (u : String)
    (h : userEntries l u = []) : getCurrentBalance l u = 0 := by
  unfold getCurrentBalance
  rw [h]

theorem getCurrentBalance_of_cons (l : Ledger) (u : String)
    (e : LedgerEntry) (es : List LedgerEntry)
    (h : userEntries l u = e :: es) :
    getCurrentBalance l u = e.balance_after := by
  unfold getCurrentBalance
  rw [h]

/-- The per-user balance-trail invariant, together with balance-equals-sum. -/
def LedgerInvariant (l : Ledger) : Prop :=
  ∀ u : String,
    chainOk (userEntries l u) = true ∧
    sumAmounts (userEntries l u) = getCurrentBalance l u

theorem ledgerInvariant_record (l : Ledger) (u : String) (amount : ℚ)
    (ct st rid d : String) (mrid : Option String)
    (h : LedgerInvariant l) :
    LedgerInvariant (recordCoinTransaction l u amount ct st rid d mrid) := by
  intro v
  have hrec := userEntries_record l u v amount ct st rid d mrid
  by_cases huv : u == v
  · rw [huv] at hrec
    simp only [if_true] at hrec
    have hu : u = v := by simpa using huv
    subst hu
    have hbal :
        getCurrentBalance
          (recordCoinTransaction l u amount ct st rid d mrid) u =
          getCurrentBalance l u + amount :=
      getCurrentBalance_of_cons _ u _ _ hrec
    rcases h u with ⟨hchain, hsum⟩
    constructor
    · rw [hrec]
      cases hE : userEntries l u with
      | nil =>
        have h0 : getCurrentBalance l u = 0 :=
          getCurrentBalance_of_nil l u hE
        simp [chainOk, h0]
      | cons f rest =>
        have hf : getCurrentBalance l u = f.balance_after :=
          getCurrentBalance_of_cons l u f rest hE
        rw [hE] at hchain
        simp [chainOk, hf, hchain, add_comm]
    · rw [hrec, hbal]
      simp only [sumAmounts, List.map_cons, List.sum_cons]
      rw [show sumAmounts (userEntries l u) =
          (List.map (fun e => e.amount) (userEntries l u)).sum from rfl]
          at hsum
      rw [hsum]
      ring
  · rw [if_neg huv] at hrec
    have hbal :
        getCurrentBalance
          (recordCoinTransaction l u amount ct st rid d mrid) v =
          getCurrentBalance l v :=
      getCurrentBalance_congr _ _ v hrec
    rcases h v with ⟨hchain, hsum⟩
    rw [hrec, hbal]
    exact ⟨hchain, hsum⟩

theorem ledgerInvariant_reachable (l : Ledger) (h : Reachable l) :
    LedgerInvariant l := by
  induction h with
  | nil =>
    intro u
    constructor
    · rfl
    · rfl
  | step l2 userId amount ct st rid d mrid _ ih =>
    exact ledgerInvariant_record l2 userId amount ct st rid d mrid ih

/-- C1: every ledger the program can build satisfies the balance-trail
invariant: per user, ordering entries by creation time, each entry's
balance_after is the previous entry's balance_after plus its amount
starting from 0; the sum of a user's amounts equals getCurrentBalance,
which reads the most recent entry's balance_after and is 0 for a user
with no entries. -/
theorem c1_ledger_balance_invariant (l : Ledger) (h : Reachable l)
    (u : String) :
    chainOk (userEntries l u) = true ∧
    sumAmounts (userEntries l u) = getCurrentBalance l u ∧
    (userEntries l u = [] → getCurrentBalance l u = 0) := by
  rcases ledgerInvariant_reachable l h u with ⟨hchain, hsum⟩
  exact ⟨hchain, hsum, fun hnil => getCurrentBalance_of_nil l u hnil⟩

/-- Witness for C1 on a concrete two-entry ledger: an earn of 5 followed by
a redemption of 2 for the same user. -/
theorem c1_ledger_balance_invariant_witness :
    chainOk (userEntries (recordCoinTransaction
      (recordCoinTransaction [] ("u") 5 ("earned") ("session") ("s1")
        ("d1") none)
      ("u") (-2) ("redeemed") ("reward") ("r1") ("d2") none) ("u")) = true ∧
    sumAmounts (userEntries (recordCoinTransaction
      (recordCoinTransaction [] ("u") 5 ("earned") ("session") ("s1")
        ("d1") none)
      ("u") (-2) ("redeemed") ("reward") ("r1") ("d2") none) ("u")) =
      getCurrentBalance (recordCoinTransaction
        (recordCoinTransaction [] ("u") 5 ("earned") ("session") ("s1")
          ("d1") none)
        ("u") (-2) ("redeemed") ("reward") ("r1") ("d2") none) ("u") ∧
    (userEntries (recordCoinTransaction
      (recordCoinTransaction [] ("u") 5 ("earned") ("session") ("s1")
        ("d1") none)
      ("u") (-2) ("redeemed") ("reward") ("r1") ("d2") none) ("u") = [] →
      getCurrentBalance (recordCoinTransaction
        (recordCoinTransaction [] ("u") 5 ("earned") ("session") ("s1")
          ("d1") none)
        ("u") (-2) ("redeemed") ("reward") ("r1") ("d2") none) ("u") = 0) :=
  c1_ledger_balance_invariant _
    (Reachable.step _ _ _ _ _ _ _ _
      (Reachable.step _ _ _ _ _ _ _ _ Reachable.nil)) ("u")

/-- C10: recordCoinTransaction appends unconditionally (no balance check for
any change kind); only redeemReward pre-checks the balance, raising the
insufficient-balance error and writing nothing exactly when the balance is
below the cost; adjustCoins records unconditionally and a negative
adjustment on an empty ledger yields an entry with negative balance_after. -/
theorem c10_only_redemption_checks_balance (l : Ledger)
    (u amount2 : String) (amount cost : ℚ) (ct st rid d : String)
    (mrid : Option String) (rewardId desc reason adminId : String) :
    recordCoinTransaction l u amount ct st rid d mrid =
      { user_id := u, amount := amount,
        balance_after := getCurrentBalance l u + amount,
        change_type := ct, source_type := st, reference_id := rid,
        description := d, rule_id := mrid } :: l ∧
    (redeemReward l u rewardId cost desc =
        Except.error ("Insufficient coin balance") ↔
      getCurrentBalance l u < cost) ∧
    (cost ≤ getCurrentBalance l u →
      redeemReward l u rewardId cost desc =
        Except.ok (recordCoinTransaction l u (-cost) ("redeemed")
          ("reward") rewardId desc none)) ∧
    adjustCoins l u amount reason adminId =
      recordCoinTransaction l u amount
        (if 0 < amount then ("bonus") else ("penalty"))
        ("admin_adjustment") adminId reason none ∧
    (∃ e : LedgerEntry,
      adjustCoins [] amount2 (-1) reason adminId = [e] ∧
      e.balance_after < 0) := by
  refine ⟨rfl, ?_, ?_, rfl, ?_⟩
  · unfold redeemReward
    split_ifs with hb <;> simp [hb]
  · intro hc
    unfold redeemReward
    rw [if_neg (not_lt.mpr hc)]
  · refine ⟨_, rfl, ?_⟩
    norm_num [adjustCoins, recordCoinTransaction, getCurrentBalance,
      userEntries]

/-- Witness for C10 at concrete inputs: the empty ledger, a cost of 5 and
an adjustment of -1. -/
theorem c10_only_redemption_checks_balance_witness :
    recordCoinTransaction [] ("u") 3 ("earned") ("session") ("s1") ("d")
        none =
      { user_id := ("u"), amount := 3,
        balance_after := getCurrentBalance [] ("u") + 3,
        change_type := ("earned"), source_type := ("session"),
        reference_id := ("s1"), description := ("d"), rule_id := none } ::
        ([] : Ledger) ∧
    (redeemReward [] ("u") ("rw1") 5 ("dsc") =
        Except.error ("Insufficient coin balance") ↔
      getCurrentBalance [] ("u") < 5) ∧
    (5 ≤ getCurrentBalance [] ("u") →
      redeemReward [] ("u") ("rw1") 5 ("dsc") =
        Except.ok (recordCoinTransaction [] ("u") (-5) ("redeemed")
          ("reward") ("rw1") ("dsc") none)) ∧
    adjustCoins [] ("u") 3 ("why") ("adm") =
      recordCoinTransaction [] ("u") 3
        (if 0 < (3 : ℚ) then ("bonus") else ("penalty"))
        ("admin_adjustment") ("adm") ("why") none ∧
    (∃ e : LedgerEntry,
      adjustCoins [] ("v") (-1) ("why") ("adm") = [e] ∧
      e.balance_after < 0) :=
  c10_only_redemption_checks_balance [] ("u") ("v") 3 5 ("earned")
    ("session") ("s1") ("d") none ("rw1") ("dsc") ("why") ("adm")

/-- C8: with an existing active task and difficulty, calculateCoins succeeds
and returns focus coins equal to floor(focus_minutes / 30) when the
5-minute activation is met and 0 otherwise, and result coins equal to
floor(result_quantity * base_coin * coefficient); concretely 4 minutes
yield 0 focus coins, 30 yield 1, 65 yield 2, and quantity 10 at base 5 and
coefficient 2 yields 100 result coins. -/
theorem c8_focus_and_result_coins (tasks : List Task)
    (difficulties : List Difficulty) (sessions : List Session)
    (userId taskId difficultyId : String) (m q : ℕ) (date : ℤ)
    (task : Task) (difficulty : Difficulty)
    (ht : tasks.find? (fun t => t.task_id == taskId && t.is_active) =
      some task)
    (hd : difficulties.find? (fun d =>
      d.difficulty_id == difficultyId && d.is_active) = some difficulty) :
    (∃ res : CoinCalculationResult,
      calculateCoins tasks difficulties sessions userId taskId difficultyId
        m q date = Except.ok res ∧
      res.focusCoins = (if m < 5 then 0 else m / 30) ∧
      res.resultCoins =
        ⌊(q : ℚ) * (task.base_coin : ℚ) * difficulty.coefficient⌋) ∧
    calculateFocusCoins 4 = 0 ∧
    calculateFocusCoins 30 = 1 ∧
    calculateFocusCoins 65 = 2 ∧
    calculateResultCoins 10 5 2 = 100 := by
  refine ⟨?_, by decide, by decide, by decide, ?_⟩
  · unfold calculateCoins
    rw [ht, hd]
    exact ⟨_, rfl, rfl, rfl⟩
  · unfold calculateResultCoins
    norm_num

/-- Witness for C8: a one-task, one-difficulty catalog with a 65-minute,
quantity-10 session input. -/
theorem c8_focus_and_result_coins_witness :
    (∃ res : CoinCalculationResult,
      calculateCoins [⟨("t1"), ("math"), ("practice"), 5, true⟩]
        [⟨("d1"), ("普通"), 2, true⟩] [] ("u") ("t1") ("d1")
        65 10 100 = Except.ok res ∧
      res.focusCoins = (if 65 < 5 then 0 else 65 / 30) ∧
      res.resultCoins =
        ⌊(10 : ℚ) * ((5 : ℕ) : ℚ) * (2 : ℚ)⌋) ∧
    calculateFocusCoins 4 = 0 ∧
    calculateFocusCoins 30 = 1 ∧
    calculateFocusCoins 65 = 2 ∧
    calculateResultCoins 10 5 2 = 100 :=
  c8_focus_and_result_coins [⟨("t1"), ("math"), ("practice"), 5, true⟩]
    [⟨("d1"), ("普通"), 2, true⟩] [] ("u") ("t1") ("d1") 65 10 100
    ⟨("t1"), ("math"), ("practice"), 5, true⟩
    ⟨("d1"), ("普通"), 2, true⟩ (by decide) (by decide)

/-- C5: the reward path runs after LearningSessionModel.create has inserted
the session with status completed (processSessionReward recalculates the
coins against the updated table), so at bonus time the table holds the
rewarded session itself.  Appending a completed session raises the user's
same-date completed count from k to k+1, and the daily-goal bonus is 15
exactly when that count, i.e. the ordinal of the rewarded session on its
date, is at least 3; concretely the 3rd session of a date earns 15 and the
2nd earns 0. -/
theorem c5_daily_goal_bonus (db : List Session) (s : Session)
    (h : s.status = ("completed")) :
    completedCountOn (s :: db) s.user_id s.session_date =
      completedCountOn db s.user_id s.session_date + 1 ∧
    (calculateDailyGoalBonus (s :: db) s.user_id s.session_date = 15 ↔
      3 ≤ completedCountOn db s.user_id s.session_date + 1) ∧
    (calculateDailyGoalBonus (s :: db) s.user_id s.session_date = 0 ↔
      ¬ 3 ≤ completedCountOn db s.user_id s.session_date + 1) ∧
    calculateDailyGoalBonus
      [⟨("s3"), ("u"), ("t"), 100, ("completed"), 1⟩,
       ⟨("s2"), ("u"), ("t"), 100, ("completed"), 1⟩,
       ⟨("s1"), ("u"), ("t"), 100, ("completed"), 1⟩] ("u") 100 = 15 ∧
    calculateDailyGoalBonus
      [⟨("s2"), ("u"), ("t"), 100, ("completed"), 1⟩,
       ⟨("s1"), ("u"), ("t"), 100, ("completed"), 1⟩] ("u") 100 = 0 := by
  have hcount : completedCountOn (s :: db) s.user_id s.session_date =
      completedCountOn db s.user_id s.session_date + 1 := by
    simp [completedCountOn, List.filter_cons, h]
  refine ⟨hcount, ?_, ?_, by decide, by decide⟩
  · unfold calculateDailyGoalBonus
    rw [hcount]
    split_ifs with h3 <;> simp [h3]
  · unfold calculateDailyGoalBonus
    rw [hcount]
    split_ifs with h3 <;> simp [h3]

/-- Witness for C5: the 3rd completed session of the day for a user with
two prior same-date sessions. -/
theorem c5_daily_goal_bonus_witness :
    completedCountOn
      [⟨("s3"), ("u"), ("t"), 100, ("completed"), 1⟩,
       ⟨("s2"), ("u"), ("t"), 100, ("completed"), 1⟩,
       ⟨("s1"), ("u"), ("t"), 100, ("completed"), 1⟩] ("u") 100 =
      completedCountOn
        [⟨("s2"), ("u"), ("t"), 100, ("completed"), 1⟩,
         ⟨("s1"), ("u"), ("t"), 100, ("completed"), 1⟩] ("u") 100 + 1 ∧
    (calculateDailyGoalBonus
      [⟨("s3"), ("u"), ("t"), 100, ("completed"), 1⟩,
       ⟨("s2"), ("u"), ("t"), 100, ("completed"), 1⟩,
       ⟨("s1"), ("u"), ("t"), 100, ("completed"), 1⟩] ("u") 100 = 15 ↔
      3 ≤ completedCountOn
        [⟨("s2"), ("u"), ("t"), 100, ("completed"), 1⟩,
         ⟨("s1"), ("u"), ("t"), 100, ("completed"), 1⟩] ("u") 100 + 1) ∧
    (calculateDailyGoalBonus
      [⟨("s3"), ("u"), ("t"), 100, ("completed"), 1⟩,
       ⟨("s2"), ("u"), ("t"), 100, ("completed"), 1⟩,
       ⟨("s1"), ("u"), ("t"), 100, ("completed"), 1⟩] ("u") 100 = 0 ↔
      ¬ 3 ≤ completedCountOn
        [⟨("s2"), ("u"), ("t"), 100, ("completed"), 1⟩,
         ⟨("s1"), ("u"), ("t"), 100, ("completed"), 1⟩] ("u") 100 + 1) ∧
    calculateDailyGoalBonus
      [⟨("s3"), ("u"), ("t"), 100, ("completed"), 1⟩,
       ⟨("s2"), ("u"), ("t"), 100, ("completed"), 1⟩,
       ⟨("s1"), ("u"), ("t"), 100, ("completed"), 1⟩] ("u") 100 = 15 ∧
    calculateDailyGoalBonus
      [⟨("s2"), ("u"), ("t"), 100, ("completed"), 1⟩,
       ⟨("s1"), ("u"), ("t"), 100, ("completed"), 1⟩] ("u") 100 = 0 :=
  c5_daily_goal_bonus
    [⟨("s2"), ("u"), ("t"), 100, ("completed"), 1⟩,
     ⟨("s1"), ("u"), ("t"), 100, ("completed"), 1⟩]
    ⟨("s3"), ("u"), ("t"), 100, ("completed"), 1⟩ rfl

theorem streakWalk_run (today : ℤ) :
    ∀ (n c : ℕ) (rest : List ℤ),
      (rest = [] ∨
        ∃ d rest2, rest = d :: rest2 ∧ d ≠ today - ((c + n : ℕ) : ℤ)) →
      streakWalk today
        (((List.range n).map (fun j => today - ((c + j : ℕ) : ℤ))) ++ rest)
        c = c + n := by
  intro n
  induction n with
  | zero =>
    intro c rest hrest
    simp only [List.range_zero, List.map_nil, List.nil_append]
    rcases hrest with h | ⟨d, rest2, hr, hne⟩
    · subst h; rfl
    · subst hr
      unfold streakWalk
      rw [if_neg (by simpa using hne)]
      omega
  | succ n ih =>
    intro c rest hrest
    rw [List.range_succ_eq_map]
    simp only [List.map_cons, List.map_map, List.cons_append]
    unfold streakWalk
    rw [if_pos (by push_cast; ring)]
    have hmap : (List.range n).map
        ((fun j => today - ((c + j : ℕ) : ℤ)) ∘ Nat.succ) =
        (List.range n).map (fun j => today - (((c + 1) + j : ℕ) : ℤ)) := by
      apply List.map_congr_left
      intro j _
      simp only [Function.comp]
      congr 1
      push_cast
      ring
    rw [hmap]
    have hrest2 : rest = [] ∨
        ∃ d rest2, rest = d :: rest2 ∧
          d ≠ today - (((c + 1) + n : ℕ) : ℤ) := by
      rcases hrest with h | ⟨d, rest2, hr, hne⟩
      · exact Or.inl h
      · refine Or.inr ⟨d, rest2, hr, ?_⟩
        have : (((c + 1) + n : ℕ) : ℤ) = ((c + (n + 1) : ℕ) : ℤ) := by
          push_cast; ring
        rw [this]
        exact hne
    rw [ih (c + 1) rest hrest2]
    omega

theorem getConsecutive_eq_walk (db : List Session) (u : String)
    (date : ℤ) :
    getConsecutiveLearningDays db u date =
      streakWalk date (recentSessionDates db u) 1 := by
  cases h : recentSessionDates db u with
  | nil =>
    unfold getConsecutiveLearningDays
    rw [h]
    rfl
  | cons d rest =>
    unfold getConsecutiveLearningDays
    rw [h]

/-- C9: when the user's distinct completed-session dates walk back exactly n
consecutive days before session_date (and then stop), the computed streak is
n + 1 and the streak bonus is 10 when the streak reaches 7, 5 when it
reaches 3, else 0; concretely a streak of 7 yields 10, of 4 yields 5 and of
2 yields 0. -/
theorem c9_streak_bonus (db : List Session) (u : String) (date : ℤ)
    (n : ℕ) (rest : List ℤ)
    (hdates : recentSessionDates db u =
      ((List.range n).map (fun j => date - ((1 + j : ℕ) : ℤ))) ++ rest)
    (hrest : rest = [] ∨
      ∃ d rest2, rest = d :: rest2 ∧ d ≠ date - ((1 + n : ℕ) : ℤ)) :
    getConsecutiveLearningDays db u date = n + 1 ∧
    calculateConsecutiveBonus db u date =
      (if 7 ≤ n + 1 then 10 else if 3 ≤ n + 1 then 5 else 0) ∧
    calculateConsecutiveBonus
      [⟨("a1"), ("u"), ("t"), 99, ("completed"), 1⟩,
       ⟨("a2"), ("u"), ("t"), 98, ("completed"), 1⟩,
       ⟨("a3"), ("u"), ("t"), 97, ("completed"), 1⟩,
       ⟨("a4"), ("u"), ("t"), 96, ("completed"), 1⟩,
       ⟨("a5"), ("u"), ("t"), 95, ("completed"), 1⟩,
       ⟨("a6"), ("u"), ("t"), 94, ("completed"), 1⟩] ("u") 100 = 10 ∧
    calculateConsecutiveBonus
      [⟨("a1"), ("u"), ("t"), 99, ("completed"), 1⟩,
       ⟨("a2"), ("u"), ("t"), 98, ("completed"), 1⟩,
       ⟨("a3"), ("u"), ("t"), 97, ("completed"), 1⟩] ("u") 100 = 5 ∧
    calculateConsecutiveBonus
      [⟨("a1"), ("u"), ("t"), 99, ("completed"), 1⟩] ("u") 100 = 0 := by
  have hwalk : getConsecutiveLearningDays db u date = 1 + n := by
    rw [getConsecutive_eq_walk, hdates]
    exact streakWalk_run date n 1 rest hrest
  have hstreak : getConsecutiveLearningDays db u date = n + 1 := by
    rw [hwalk]; omega
  refine ⟨hstreak, ?_, by decide, by decide, by decide⟩
  unfold calculateConsecutiveBonus
  rw [hstreak]

/-- Witness for C9: a user who learned on each of the 6 days before day
100, giving a streak of 7. -/
theorem c9_streak_bonus_witness :
    getConsecutiveLearningDays
      [⟨("a1"), ("u"), ("t"), 99, ("completed"), 1⟩,
       ⟨("a2"), ("u"), ("t"), 98, ("completed"), 1⟩,
       ⟨("a3"), ("u"), ("t"), 97, ("completed"), 1⟩,
       ⟨("a4"), ("u"), ("t"), 96, ("completed"), 1⟩,
       ⟨("a5"), ("u"), ("t"), 95, ("completed"), 1⟩,
       ⟨("a6"), ("u"), ("t"), 94, ("completed"), 1⟩] ("u") 100 = 6 + 1 ∧
    calculateConsecutiveBonus
      [⟨("a1"), ("u"), ("t"), 99, ("completed"), 1⟩,
       ⟨("a2"), ("u"), ("t"), 98, ("completed"), 1⟩,
       ⟨("a3"), ("u"), ("t"), 97, ("completed"), 1⟩,
       ⟨("a4"), ("u"), ("t"), 96, ("completed"), 1⟩,
       ⟨("a5"), ("u"), ("t"), 95, ("completed"), 1⟩,
       ⟨("a6"), ("u"), ("t"), 94, ("completed"), 1⟩] ("u") 100 =
      (if 7 ≤ 6 + 1 then 10 else if 3 ≤ 6 + 1 then 5 else 0) ∧
    calculateConsecutiveBonus
      [⟨("a1"), ("u"), ("t"), 99, ("completed"), 1⟩,
       ⟨("a2"), ("u"), ("t"), 98, ("completed"), 1⟩,
       ⟨("a3"), ("u"), ("t"), 97, ("completed"), 1⟩,
       ⟨("a4"), ("u"), ("t"), 96, ("completed"), 1⟩,
       ⟨("a5"), ("u"), ("t"), 95, ("completed"), 1⟩,
       ⟨("a6"), ("u"), ("t"), 94, ("completed"), 1⟩] ("u") 100 = 10 ∧
    calculateConsecutiveBonus
      [⟨("a1"), ("u"), ("t"), 99, ("completed"), 1⟩,
       ⟨("a2"), ("u"), ("t"), 98, ("completed"), 1⟩,
       ⟨("a3"), ("u"), ("t"), 97, ("completed"), 1⟩] ("u") 100 = 5 ∧
    calculateConsecutiveBonus
      [⟨("a1"), ("u"), ("t"), 99, ("completed"), 1⟩] ("u") 100 = 0 :=
  c9_streak_bonus
    [⟨("a1"), ("u"), ("t"), 99, ("completed"), 1⟩,
     ⟨("a2"), ("u"), ("t"), 98, ("completed"), 1⟩,
     ⟨("a3"), ("u"), ("t"), 97, ("completed"), 1⟩,
     ⟨("a4"), ("u"), ("t"), 96, ("completed"), 1⟩,
     ⟨("a5"), ("u"), ("t"), 95, ("completed"), 1⟩,
     ⟨("a6"), ("u"), ("t"), 94, ("completed"), 1⟩] ("u") 100 6 []
    (by decide) (Or.inl rfl)

theorem foldl_preserve {α : Type} (P : Ledger → Prop)
    (f : Ledger → α → Ledger) :
    ∀ (xs : List α) (l : Ledger),
      (∀ a ∈ xs, ∀ l2, P l2 → P (f l2 a)) → P l → P (xs.foldl f l) := by
  intro xs
  induction xs with
  | nil => intro l _ h; exact h
  | cons x rest ih =>
    intro l hstep h
    exact ih (f l x) (fun a ha l2 => hstep a (List.mem_cons_of_mem x ha) l2)
      (hstep x (List.mem_cons_self x rest) l h)

theorem foldl_congr_id {α : Type} (f : Ledger → α → Ledger) :
    ∀ (xs : List α) (l : Ledger),
      (∀ a ∈ xs, ∀ l2, f l2 a = l2) → xs.foldl f l = l := by
  intro xs
  induction xs with
  | nil => intro l _; rfl
  | cons x rest ih =>
    intro l hid
    rw [List.foldl_cons, hid x (List.mem_cons_self x rest) l]
    exact ih l (fun a ha l2 => hid a (List.mem_cons_of_mem x ha) l2)

theorem applyDecay_preserves (owner : String → String) (userId : String)
    (s : Session) (r : DecayRule) (l : Ledger)
    (huser : userId = owner s.session_id)
    (hown : DecayOwnership owner l) (hpair : PairAtMostOnce l) :
    DecayOwnership owner (applyDecayToSession userId s r l) ∧
    PairAtMostOnce (applyDecayToSession userId s r l) := by
  unfold applyDecayToSession
  by_cases hfind : (l.find? (isDecayEntryFor userId s.session_id
      r.rule_id)).isSome
  · rw [if_pos hfind]
    exact ⟨hown, hpair⟩
  · rw [if_neg hfind]
    by_cases hamt : 0 < decayAmountFor r s
    · simp only [if_pos hamt]
      have hnone : l.find? (isDecayEntryFor userId s.session_id r.rule_id)
          = none := Option.not_isSome_iff_eq_none.mp hfind
      have hnotin : ∀ e ∈ l,
          ¬ isDecayEntryFor userId s.session_id r.rule_id e = true :=
        fun e he => by
          have := List.find?_eq_none.mp hnone e he
          simpa using this
      constructor
      · intro e he hdec
        rcases List.mem_cons.mp he with he1 | he2
        · subst he1
          simpa using huser
        · exact hown e he2 hdec
      · intro sid rid
        unfold decayPairCount
        rw [show recordCoinTransaction l userId (-(decayAmountFor r s))
            ("decayed") ("session_decay") s.session_id
            ("知识遗忘衰减 - " ++ r.name) (some r.rule_id) =
            { user_id := userId, amount := -(decayAmountFor r s),
              balance_after :=
                getCurrentBalance l userId + -(decayAmountFor r s),
              change_type := ("decayed"), source_type := ("session_decay"),
              reference_id := s.session_id,
              description := ("知识遗忘衰减 - " ++ r.name),
              rule_id := some r.rule_id } :: l from rfl]
        rw [List.filter_cons]
        by_cases hmatch : isDecayEntryForPair sid rid
            { user_id := userId, amount := -(decayAmountFor r s),
              balance_after :=
                getCurrentBalance l userId + -(decayAmountFor r s),
              change_type := ("decayed"), source_type := ("session_decay"),
              reference_id := s.session_id,
              description := ("知识遗忘衰减 - " ++ r.name),
              rule_id := some r.rule_id } = true
        · rw [hmatch]
          have hsid : sid = s.session_id := by
            have := hmatch
            simp [isDecayEntryForPair] at this
            exact this.1.symm
          have hrid : rid = r.rule_id := by
            have := hmatch
            simp [isDecayEntryForPair] at this
            exact this.2.symm
          subst hsid
          subst hrid
          have hempty : l.filter (isDecayEntryForPair s.session_id r.rule_id)
              = [] := by
            rw [List.filter_eq_nil_iff]
            intro e he
            intro hmatche
            have hfields : (e.change_type = ("decayed") ∧
                e.reference_id = s.session_id) ∧
                e.rule_id = some r.rule_id := by
              simpa [isDecayEntryForPair] using hmatche
            have huid : e.user_id = userId := by
              rw [hown e he hfields.1.1, hfields.1.2, ← huser]
            exact hnotin e he (by
              simp [isDecayEntryFor, huid, hfields.1.1, hfields.1.2,
                hfields.2])
          rw [hempty]
          simp
        · rw [if_neg hmatch]
          exact hpair sid rid
    · simp only [if_neg hamt]
      exact ⟨hown, hpair⟩

theorem processUserDecay_preserves (owner : String → String) (today : ℤ)
    (tasks : List Task) (sessions : List Session) (userId : String)
    (decayRules : List DecayRule) (l : Ledger)
    (hsess : ∀ s ∈ sessions, s.user_id = owner s.session_id)
    (hown : DecayOwnership owner l) (hpair : PairAtMostOnce l) :
    DecayOwnership owner
      (processUserDecay today tasks sessions userId decayRules l) ∧
    PairAtMostOnce
      (processUserDecay today tasks sessions userId decayRules l) := by
  unfold processUserDecay
  refine foldl_preserve
    (fun l2 => DecayOwnership owner l2 ∧ PairAtMostOnce l2) _ decayRules l
    ?_ ⟨hown, hpair⟩
  intro r _ l2 h2
  refine foldl_preserve
    (fun l3 => DecayOwnership owner l3 ∧ PairAtMostOnce l3) _ _ l2 ?_ h2
  intro s hs l3 h3
  have hs2 : s ∈ getUserSessionsForDecay today sessions userId :=
    (List.mem_filter.mp hs).1
  have hs3 : s ∈ sessions := (List.mem_filter.mp hs2).1
  have hsu : s.user_id = userId := by
    have hp := (List.mem_filter.mp hs2).2
    simp [getUserSessionsForDecay] at hp
    exact hp.1.1.1
  have huser : userId = owner s.session_id := by
    rw [← hsu]
    exact hsess s hs3
  by_cases hth : (r.threshold_days : ℤ) ≤ getDaysSince today s.session_date
  · rw [if_pos hth]
    exact applyDecay_preserves owner userId s r l3 huser h3.1 h3.2
  · rw [if_neg hth]
    exact h3

theorem triggerDecay_preserves (owner : String → String) (today : ℤ)
    (tasks : List Task) (sessions : List Session) (users : List String)
    (rules : List DecayRule) (target : Option String) (l : Ledger)
    (hsess : ∀ s ∈ sessions, s.user_id = owner s.session_id)
    (hown : DecayOwnership owner l) (hpair : PairAtMostOnce l) :
    DecayOwnership owner
      (triggerDecay today tasks sessions users rules target l) ∧
    PairAtMostOnce
      (triggerDecay today tasks sessions users rules target l) := by
  cases target with
  | some u =>
    exact processUserDecay_preserves owner today tasks sessions u
      (getActiveDecayRules rules) l hsess hown hpair
  | none =>
    unfold triggerDecay executeDecayProcess
    refine foldl_preserve
      (fun l2 => DecayOwnership owner l2 ∧ PairAtMostOnce l2) _ users l
      ?_ ⟨hown, hpair⟩
    intro u _ l2 h2
    exact processUserDecay_preserves owner today tasks sessions u
      (getActiveDecayRules rules) l2 hsess h2.1 h2.2

theorem runDecayOps_preserves (owner : String → String) :
    ∀ (ops : List DecayInvocation) (l : Ledger),
      (∀ op ∈ ops, ∀ s ∈ op.sessions, s.user_id = owner s.session_id) →
      DecayOwnership owner l → PairAtMostOnce l →
      DecayOwnership owner (runDecayOps ops l) ∧
      PairAtMostOnce (runDecayOps ops l) := by
  intro ops
  induction ops with
  | nil => intro l _ hown hpair; exact ⟨hown, hpair⟩
  | cons op rest ih =>
    intro l hsess hown hpair
    have hstep := triggerDecay_preserves owner op.today op.tasks op.sessions
      op.users op.rules op.target l
      (hsess op (List.mem_cons_self op rest)) hown hpair
    exact ih _ (fun op2 h2 => hsess op2 (List.mem_cons_of_mem op h2))
      hstep.1 hstep.2

/-- C2: decayed entries are written at most once per (session, rule) pair,
system-wide, across any sequence of scheduled cycles and manual triggers
(each observing its own clock, session table and rule configuration, with
sessions keyed to their owning user); moreover applyDecayToSession leaves
the ledger untouched when a matching decayed entry already exists, and
processUserDecay applies no decay to a session below a rule's age
threshold. -/
theorem c2_decay_applied_at_most_once (owner : String → String)
    (ops : List DecayInvocation) (l : Ledger)
    (hown : DecayOwnership owner l) (hpair : PairAtMostOnce l)
    (hsess : ∀ op ∈ ops, ∀ s ∈ op.sessions,
      s.user_id = owner s.session_id) :
    PairAtMostOnce (runDecayOps ops l) ∧
    (∀ (userId : String) (s : Session) (r : DecayRule) (l2 : Ledger),
      (l2.find? (isDecayEntryFor userId s.session_id r.rule_id)).isSome →
      applyDecayToSession userId s r l2 = l2) ∧
    (∀ (today : ℤ) (tasks : List Task) (sessions2 : List Session)
        (userId : String) (rules : List DecayRule) (l2 : Ledger),
      (∀ r ∈ rules, ∀ s ∈ getUserSessionsForDecay today sessions2 userId,
        getDaysSince today s.session_date < (r.threshold_days : ℤ)) →
      processUserDecay today tasks sessions2 userId rules l2 = l2) := by
  refine ⟨(runDecayOps_preserves owner ops l hsess hown hpair).2, ?_, ?_⟩
  · intro userId s r l2 hfind
    unfold applyDecayToSession
    rw [if_pos hfind]
  · intro today tasks sessions2 userId rules l2 hbelow
    unfold processUserDecay
    refine foldl_congr_id _ rules l2 ?_
    intro r hr l3
    refine foldl_congr_id _ _ l3 ?_
    intro s hs l4
    have hs2 : s ∈ getUserSessionsForDecay today sessions2 userId :=
      (List.mem_filter.mp hs).1
    rw [if_neg (not_le.mpr (hbelow r hr s hs2))]

/-- Witness for C2: the same one-user, one-rule cycle executed twice in a
row, starting from the empty ledger. -/
theorem c2_decay_applied_at_most_once_witness :
    PairAtMostOnce (runDecayOps
      [⟨100, [], [⟨("s1"), ("u1"), ("t1"), 50, ("completed"), 10⟩],
        [("u1")],
        [⟨("r0"), ("f"), 0, 50, ("fixed"), ("all"), none, true, 0, false⟩],
        none⟩,
       ⟨100, [], [⟨("s1"), ("u1"), ("t1"), 50, ("completed"), 10⟩],
        [("u1")],
        [⟨("r0"), ("f"), 0, 50, ("fixed"), ("all"), none, true, 0, false⟩],
        none⟩] []) ∧
    (∀ (userId : String) (s : Session) (r : DecayRule) (l2 : Ledger),
      (l2.find? (isDecayEntryFor userId s.session_id r.rule_id)).isSome →
      applyDecayToSession userId s r l2 = l2) ∧
    (∀ (today : ℤ) (tasks : List Task) (sessions2 : List Session)
        (userId : String) (rules : List DecayRule) (l2 : Ledger),
      (∀ r ∈ rules, ∀ s ∈ getUserSessionsForDecay today sessions2 userId,
        getDaysSince today s.session_date < (r.threshold_days : ℤ)) →
      processUserDecay today tasks sessions2 userId rules l2 = l2) :=
  c2_decay_applied_at_most_once (fun _ => ("u1")) _ []
    (fun e he => absurd he (List.not_mem_nil e))
    (fun sid rid => by simp [decayPairCount])
    (by decide)

/-- C3: for an eligible pair (no decayed entry yet), the decay amount is
min(total_coins, floor(total_coins * rate)) for a percentage rule and
min(total_coins, rate) for a fixed rule, and exactly when it is positive a
decayed entry of minus that amount referencing the session and carrying the
rule id is appended; a fixed rule of rate 50 on a 10-coin session decays
10, and a percentage rule of rate 0.2 on a 100-coin session appends an
entry of amount -20. -/
theorem c3_decay_amount_formula (userId : String) (s : Session)
    (r : DecayRule) (l : Ledger)
    (hfind : l.find? (isDecayEntryFor userId s.session_id r.rule_id) =
      none) :
    decayAmountFor r s = min s.total_coins
      (if r.decay_type = ("percentage") then
        ((⌊s.total_coins * r.decay_rate⌋ : ℤ) : ℚ)
      else r.decay_rate) ∧
    (0 < decayAmountFor r s →
      applyDecayToSession userId s r l =
        recordCoinTransaction l userId (-(decayAmountFor r s)) ("decayed")
          ("session_decay") s.session_id ("知识遗忘衰减 - " ++ r.name)
          (some r.rule_id)) ∧
    (¬ 0 < decayAmountFor r s → applyDecayToSession userId s r l = l) ∧
    decayAmountFor
      ⟨("rf"), ("f"), 0, 50, ("fixed"), ("all"), none, true, 0, false⟩
      ⟨("s1"), ("u"), ("t"), 0, ("completed"), 10⟩ = 10 ∧
    applyDecayToSession ("u")
      ⟨("s1"), ("u"), ("t"), 0, ("completed"), 100⟩
      ⟨("rp"), ("p"), 0, 1/5, ("percentage"), ("all"), none, true, 0,
        false⟩ [] =
      [⟨("u"), -20, -20, ("decayed"), ("session_decay"), ("s1"),
        ("知识遗忘衰减 - p"), some ("rp")⟩] := by
  have hnotSome :
      ¬ (l.find? (isDecayEntryFor userId s.session_id r.rule_id)).isSome
        := by
    rw [hfind]
    simp
  refine ⟨min_comm _ _, ?_, ?_, ?_, ?_⟩
  · intro hpos
    unfold applyDecayToSession
    rw [if_neg hnotSome]
    simp only [if_pos hpos]
  · intro hnonpos
    unfold applyDecayToSession
    rw [if_neg hnotSome]
    simp only [if_neg hnonpos]
  · simp +decide [decayAmountFor, min_def]
  · simp +decide [applyDecayToSession, isDecayEntryFor, decayAmountFor,
      min_def, recordCoinTransaction, getCurrentBalance, userEntries]
    norm_num

/-- Witness for C3: an empty ledger and a fixed-rate rule over a 10-coin
session. -/
theorem c3_decay_amount_formula_witness :
    decayAmountFor
      ⟨("rf"), ("f"), 0, 50, ("fixed"), ("all"), none, true, 0, false⟩
      ⟨("s1"), ("u"), ("t"), 0, ("completed"), 10⟩ = min 10
      (if (("fixed") : String) = ("percentage") then
        ((⌊(10 : ℚ) * (50 : ℚ)⌋ : ℤ) : ℚ)
      else 50) ∧
    (0 < decayAmountFor
        ⟨("rf"), ("f"), 0, 50, ("fixed"), ("all"), none, true, 0, false⟩
        ⟨("s1"), ("u"), ("t"), 0, ("completed"), 10⟩ →
      applyDecayToSession ("u")
        ⟨("s1"), ("u"), ("t"), 0, ("completed"), 10⟩
        ⟨("rf"), ("f"), 0, 50, ("fixed"), ("all"), none, true, 0, false⟩
        [] =
        recordCoinTransaction [] ("u")
          (-(decayAmountFor
            ⟨("rf"), ("f"), 0, 50, ("fixed"), ("all"), none, true, 0,
              false⟩
            ⟨("s1"), ("u"), ("t"), 0, ("completed"), 10⟩)) ("decayed")
          ("session_decay") ("s1") ("知识遗忘衰减 - " ++ ("f"))
          (some ("rf"))) ∧
    (¬ 0 < decayAmountFor
        ⟨("rf"), ("f"), 0, 50, ("fixed"), ("all"), none, true, 0, false⟩
        ⟨("s1"), ("u"), ("t"), 0, ("completed"), 10⟩ →
      applyDecayToSession ("u")
        ⟨("s1"), ("u"), ("t"), 0, ("completed"), 10⟩
        ⟨("rf"), ("f"), 0, 50, ("fixed"), ("all"), none, true, 0, false⟩
        [] = []) ∧
    decayAmountFor
      ⟨("rf"), ("f"), 0, 50, ("fixed"), ("all"), none, true, 0, false⟩
      ⟨("s1"), ("u"), ("t"), 0, ("completed"), 10⟩ = 10 ∧
    applyDecayToSession ("u")
      ⟨("s1"), ("u"), ("t"), 0, ("completed"), 100⟩
      ⟨("rp"), ("p"), 0, 1/5, ("percentage"), ("all"), none, true, 0,
        false⟩ [] =
      [⟨("u"), -20, -20, ("decayed"), ("session_decay"), ("s1"),
        ("知识遗忘衰减 - p"), some ("rp")⟩] :=
  c3_decay_amount_formula ("u")
    ⟨("s1"), ("u"), ("t"), 0, ("completed"), 10⟩
    ⟨("rf"), ("f"), 0, 50, ("fixed"), ("all"), none, true, 0, false⟩
    [] rfl

theorem runSessionsF_ok (fails : String → String → String → Bool)
    (today : ℤ) (userId : String) (r : DecayRule)
    (hno : ∀ ruleId sessionId, fails userId ruleId sessionId = false) :
    ∀ (ss : List Session) (l : Ledger),
      runSessionsF fails today userId r ss l =
        (ss.foldl (fun acc2 s =>
          if (r.threshold_days : ℤ) ≤ getDaysSince today s.session_date
          then applyDecayToSession userId s r acc2
          else acc2) l, true) := by
  intro ss
  induction ss with
  | nil => intro l; rfl
  | cons s rest ih =>
    intro l
    unfold runSessionsF
    by_cases hth : (r.threshold_days : ℤ) ≤ getDaysSince today
        s.session_date
    · rw [if_pos hth, hno r.rule_id s.session_id]
      simp only [Bool.false_eq_true, if_false]
      rw [ih]
      simp [hth]
    · rw [if_neg hth]
      rw [ih]
      simp [hth]

theorem runRulesF_ok (fails : String → String → String → Bool)
    (today : ℤ) (tasks : List Task) (userSessions : List Session)
    (userId : String)
    (hno : ∀ ruleId sessionId, fails userId ruleId sessionId = false) :
    ∀ (rules : List DecayRule) (l : Ledger),
      runRulesF fails today tasks userSessions userId rules l =
        (rules.foldl (fun acc r =>
          (filterSessionsByRule tasks userSessions r).foldl (fun acc2 s =>
            if (r.threshold_days : ℤ) ≤ getDaysSince today s.session_date
            then applyDecayToSession userId s r acc2
            else acc2) acc) l, true) := by
  intro rules
  induction rules with
  | nil => intro l; rfl
  | cons r rest ih =>
    intro l
    unfold runRulesF
    rw [runSessionsF_ok fails today userId r hno]
    exact ih _

theorem processUserDecayF_ok (fails : String → String → String → Bool)
    (today : ℤ) (tasks : List Task) (sessions : List Session)
    (userId : String) (decayRules : List DecayRule) (l : Ledger)
    (hno : ∀ ruleId sessionId, fails userId ruleId sessionId = false) :
    processUserDecayF fails today tasks sessions userId decayRules l =
      (processUserDecay today tasks sessions userId decayRules l, true) := by
  unfold processUserDecayF processUserDecay
  exact runRulesF_ok fails today tasks
    (getUserSessionsForDecay today sessions userId) userId hno decayRules l

/-- C4 counterexample: one cycle with a single user owning two eligible
sessions under one rule; the store throws on the (user, rule, s1) triple.
The claim says every other triple of the same cycle, including the
remaining sessions of the same user, is still processed, so s2 should end
up decayed; in the code the per-user try/catch makes the throw abandon the
rest of that user's rules and sessions, and s2 receives no entry even
though the failure-free cycle decays it. -/
theorem c4_failure_skips_rest_of_user :
    decayEntryCount
      (executeDecayProcess 100 []
        [⟨("s1"), ("u1"), ("t1"), 50, ("completed"), 10⟩,
         ⟨("s2"), ("u1"), ("t1"), 60, ("completed"), 10⟩] [("u1")]
        [⟨("r0"), ("f"), 0, 50, ("fixed"), ("all"), none, true, 0, false⟩]
        []) ("u1") ("s2") ("r0") = 1 ∧
    decayEntryCount
      (executeDecayProcessF (fun _ _ sessionId => sessionId == ("s1")) 100
        []
        [⟨("s1"), ("u1"), ("t1"), 50, ("completed"), 10⟩,
         ⟨("s2"), ("u1"), ("t1"), 60, ("completed"), 10⟩] [("u1")]
        [⟨("r0"), ("f"), 0, 50, ("fixed"), ("all"), none, true, 0, false⟩]
        []) ("u1") ("s2") ("r0") = 0 := by
  constructor
  · decide
  · decide

/-- C4 amended: the decay cycle isolates failures per user, not per
(user, rule, session) triple.  A throw while processing one triple abandons
the remaining rules and sessions of that same user (kept writes included),
but any user whose own triples never fail — in particular every user after
a failing one — is processed exactly as in the failure-free cycle. -/
theorem c4_failure_isolated_per_user
    (fails : String → String → String → Bool) (today : ℤ)
    (tasks : List Task) (sessions : List Session) (users : List String)
    (userId : String) (rules decayRules : List DecayRule) (l : Ledger)
    (hno : ∀ ruleId sessionId, fails userId ruleId sessionId = false) :
    processUserDecayF fails today tasks sessions userId decayRules l =
      (processUserDecay today tasks sessions userId decayRules l, true) ∧
    executeDecayProcessF fails today tasks sessions (users ++ [userId])
        rules l =
      processUserDecay today tasks sessions userId
        (getActiveDecayRules rules)
        (executeDecayProcessF fails today tasks sessions users rules l) := by
  constructor
  · exact processUserDecayF_ok fails today tasks sessions userId decayRules
      l hno
  · unfold executeDecayProcessF
    rw [List.foldl_append]
    simp only [List.foldl_cons, List.foldl_nil]
    rw [processUserDecayF_ok fails today tasks sessions userId
      (getActiveDecayRules rules) _ hno]

/-- Witness for C4 amended: the second user, whose triples never fail, is
fully processed although the first user's session s1 throws. -/
theorem c4_failure_isolated_per_user_witness :
    processUserDecayF (fun u _ _ => u == ("u1")) 100 []
      [⟨("s1"), ("u1"), ("t1"), 50, ("completed"), 10⟩,
       ⟨("s3"), ("u2"), ("t1"), 60, ("completed"), 10⟩] ("u2")
      [⟨("r0"), ("f"), 0, 50, ("fixed"), ("all"), none, true, 0, false⟩]
      [] =
      (processUserDecay 100 []
        [⟨("s1"), ("u1"), ("t1"), 50, ("completed"), 10⟩,
         ⟨("s3"), ("u2"), ("t1"), 60, ("completed"), 10⟩] ("u2")
        [⟨("r0"), ("f"), 0, 50, ("fixed"), ("all"), none, true, 0, false⟩]
        [], true) ∧
    executeDecayProcessF (fun u _ _ => u == ("u1")) 100 []
      [⟨("s1"), ("u1"), ("t1"), 50, ("completed"), 10⟩,
       ⟨("s3"), ("u2"), ("t1"), 60, ("completed"), 10⟩]
      ([("u1")] ++ [("u2")])
      [⟨("r0"), ("f"), 0, 50, ("fixed"), ("all"), none, true, 0, false⟩]
      [] =
      processUserDecay 100 []
        [⟨("s1"), ("u1"), ("t1"), 50, ("completed"), 10⟩,
         ⟨("s3"), ("u2"), ("t1"), 60, ("completed"), 10⟩] ("u2")
        (getActiveDecayRules
          [⟨("r0"), ("f"), 0, 50, ("fixed"), ("all"), none, true, 0,
            false⟩])
        (executeDecayProcessF (fun u _ _ => u == ("u1")) 100 []
          [⟨("s1"), ("u1"), ("t1"), 50, ("completed"), 10⟩,
           ⟨("s3"), ("u2"), ("t1"), 60, ("completed"), 10⟩] [("u1")]
          [⟨("r0"), ("f"), 0, 50, ("fixed"), ("all"), none, true, 0,
            false⟩] []) :=
  c4_failure_isolated_per_user (fun u _ _ => u == ("u1")) 100 []
    [⟨("s1"), ("u1"), ("t1"), 50, ("completed"), 10⟩,
     ⟨("s3"), ("u2"), ("t1"), 60, ("completed"), 10⟩] [("u1")] ("u2")
    [⟨("r0"), ("f"), 0, 50, ("fixed"), ("all"), none, true, 0, false⟩]
    [⟨("r0"), ("f"), 0, 50, ("fixed"), ("all"), none, true, 0, false⟩]
    [] (fun _ _ => rfl)

/-- C6 counterexample: with an active emergency rule in the configuration
(here scoped to a subject no session has) the hourly tick fires and runs
the full cycle over all active rules, so the non-urgent rule r0 — whose
emergency flag is false — produces a decayed entry, contradicting the
claim that no decay entry is produced by a rule lacking the urgent flag.
-/
theorem c6_hourly_runs_all_rules :
    shouldRunHourlyDecay
      [⟨("re"), ("emg"), 0, 1, ("fixed"), ("subject"), some ("none"),
        true, 5, true⟩,
       ⟨("r0"), ("f"), 0, 50, ("fixed"), ("all"), none, true, 0, false⟩] =
      true ∧
    (⟨("r0"), ("f"), 0, 50, ("fixed"), ("all"), none, true, 0, false⟩ :
      DecayRule).emergency = false ∧
    decayEntryCount
      (hourlyDecayTick 100 [] [⟨("sp"), ("u1"), ("t1"), 96, ("completed"),
        10⟩] [("u1")]
        [⟨("re"), ("emg"), 0, 1, ("fixed"), ("subject"), some ("none"),
          true, 5, true⟩,
         ⟨("r0"), ("f"), 0, 50, ("fixed"), ("all"), none, true, 0,
          false⟩] []) ("u1") ("sp") ("r0") = 1 := by
  refine ⟨by decide, by decide, by decide⟩

/-- C6 amended: the hourly tick is only gated — not filtered — by urgency:
it runs exactly when some active rule carries the emergency metadata flag,
and when it runs it executes the full daily cycle over the entire active
rule set (urgent and non-urgent alike); with no active emergency rule it
leaves the ledger untouched. -/
theorem c6_hourly_gate (today : ℤ) (tasks : List Task)
    (sessions : List Session) (users : List String)
    (rules : List DecayRule) (l : Ledger) :
    (shouldRunHourlyDecay rules = false →
      hourlyDecayTick today tasks sessions users rules l = l) ∧
    (shouldRunHourlyDecay rules = true →
      hourlyDecayTick today tasks sessions users rules l =
        executeDecayProcess today tasks sessions users rules l) ∧
    (shouldRunHourlyDecay rules = true ↔
      ∃ r ∈ rules, r.is_active = true ∧ r.emergency = true) := by
  refine ⟨?_, ?_, ?_⟩
  · intro h
    unfold hourlyDecayTick
    rw [h]
    rfl
  · intro h
    unfold hourlyDecayTick
    rw [h]
    rfl
  · unfold shouldRunHourlyDecay
    rw [List.find?_isSome]
    simp

/-- Witness for C6 amended: the two-rule configuration of the
counterexample, whose emergency rule makes the gate fire. -/
theorem c6_hourly_gate_witness :
    (shouldRunHourlyDecay
        [⟨("re"), ("emg"), 0, 1, ("fixed"), ("subject"), some ("none"),
          true, 5, true⟩,
         ⟨("r0"), ("f"), 0, 50, ("fixed"), ("all"), none, true, 0,
          false⟩] = false →
      hourlyDecayTick 100 [] [⟨("sp"), ("u1"), ("t1"), 96, ("completed"),
        10⟩] [("u1")]
        [⟨("re"), ("emg"), 0, 1, ("fixed"), ("subject"), some ("none"),
          true, 5, true⟩,
         ⟨("r0"), ("f"), 0, 50, ("fixed"), ("all"), none, true, 0,
          false⟩] [] = []) ∧
    (shouldRunHourlyDecay
        [⟨("re"), ("emg"), 0, 1, ("fixed"), ("subject"), some ("none"),
          true, 5, true⟩,
         ⟨("r0"), ("f"), 0, 50, ("fixed"), ("all"), none, true, 0,
          false⟩] = true →
      hourlyDecayTick 100 [] [⟨("sp"), ("u1"), ("t1"), 96, ("completed"),
        10⟩] [("u1")]
        [⟨("re"), ("emg"), 0, 1, ("fixed"), ("subject"), some ("none"),
          true, 5, true⟩,
         ⟨("r0"), ("f"), 0, 50, ("fixed"), ("all"), none, true, 0,
          false⟩] [] =
        executeDecayProcess 100 [] [⟨("sp"), ("u1"), ("t1"), 96,
          ("completed"), 10⟩] [("u1")]
          [⟨("re"), ("emg"), 0, 1, ("fixed"), ("subject"), some ("none"),
            true, 5, true⟩,
           ⟨("r0"), ("f"), 0, 50, ("fixed"), ("all"), none, true, 0,
            false⟩] []) ∧
    (shouldRunHourlyDecay
        [⟨("re"), ("emg"), 0, 1, ("fixed"), ("subject"), some ("none"),
          true, 5, true⟩,
         ⟨("r0"), ("f"), 0, 50, ("fixed"), ("all"), none, true, 0,
          false⟩] = true ↔
      ∃ r ∈ [⟨("re"), ("emg"), 0, 1, ("fixed"), ("subject"),
          some ("none"), true, 5, true⟩,
        (⟨("r0"), ("f"), 0, 50, ("fixed"), ("all"), none, true, 0,
          false⟩ : DecayRule)],
        r.is_active = true ∧ r.emergency = true) :=
  c6_hourly_gate 100 [] [⟨("sp"), ("u1"), ("t1"), 96, ("completed"), 10⟩]
    [("u1")]
    [⟨("re"), ("emg"), 0, 1, ("fixed"), ("subject"), some ("none"), true,
      5, true⟩,
     ⟨("r0"), ("f"), 0, 50, ("fixed"), ("all"), none, true, 0, false⟩] []

theorem predictPairs_filter_drop (l : Ledger) (today : ℤ)
    (userId : String) (tasks : List Task) (s : Session) (i : ℕ) :
    ∀ (rules : List DecayRule) (sessions : List Session),
      (∀ r ∈ rules,
        hasDecayedInLedger l userId s.session_id r.rule_id = true) →
      (predictPairs tasks rules (s :: sessions)).filter
        (predictCounted l today userId i) =
      (predictPairs tasks rules sessions).filter
        (predictCounted l today userId i) := by
  intro rules
  induction rules with
  | nil => intro sessions _; rfl
  | cons r rest ih =>
    intro sessions hdec
    unfold predictPairs
    simp only [List.flatMap_cons, List.filter_append]
    have hhead :
        ((filterSessionsByRule tasks (s :: sessions) r).map
          (fun s2 => (r, s2))).filter (predictCounted l today userId i) =
        ((filterSessionsByRule tasks sessions r).map
          (fun s2 => (r, s2))).filter (predictCounted l today userId i)
        := by
      unfold filterSessionsByRule
      rw [List.filter_cons]
      by_cases hm : matchesRule tasks r s
      · rw [if_pos (by simpa using hm), List.map_cons, List.filter_cons]
        rw [if_neg (by
          simp only [predictCounted, Bool.and_eq_true, Bool.not_eq_true]
          intro hcontra
          rw [hdec r (List.mem_cons_self r rest)] at hcontra
          simpa using hcontra.2)]
      · rw [if_neg (by simpa using hm)]
    rw [hhead]
    have htail := ih sessions
      (fun r2 h2 => hdec r2 (List.mem_cons_of_mem r h2))
    unfold predictPairs at htail
    rw [htail]

/-- C7 counterexample: a session 4 days old under a 5-day-threshold rule
with an empty ledger.  It first crosses the threshold at offset 1, so by
the claim it must not be counted again at offset 2; the code re-checks only
the (unchanged) ledger, so the same (session, rule) pair is counted on both
projected dates. -/
theorem c7_predict_recounts_pairs :
    predictDecay [] 100 []
      [⟨("sp"), ("u1"), ("t1"), 96, ("completed"), 10⟩]
      [⟨("r5"), ("thr"), 5, 5, ("fixed"), ("all"), none, true, 0, false⟩]
      ("u1") 2 = [⟨101, 5, 1⟩, ⟨102, 5, 1⟩] ∧
    (predictDecay [] 100 []
      [⟨("sp"), ("u1"), ("t1"), 96, ("completed"), 10⟩]
      [⟨("r5"), ("thr"), 5, 5, ("fixed"), ("all"), none, true, 0, false⟩]
      ("u1") 2).map (fun p => p.affectedSessions) = [1, 1] := by
  have h : predictDecay [] 100 []
      [⟨("sp"), ("u1"), ("t1"), 96, ("completed"), 10⟩]
      [⟨("r5"), ("thr"), 5, 5, ("fixed"), ("all"), none, true, 0, false⟩]
      ("u1") 2 = [⟨101, 5, 1⟩, ⟨102, 5, 1⟩] := by
    simp +decide [predictDecay, predictDay, predictPairs, predictCounted,
      getActiveDecayRules, getUserSessionsForDecay, filterSessionsByRule,
      matchesRule, insertRuleByPriority, hasDecayedInLedger,
      isDecayEntryFor, decayAmountFor, getDaysSince, List.range,
      List.range.loop, min_def]
  rw [h]
  exact ⟨rfl, rfl⟩

/-- C7 amended: predictDecay only reads the ledger (the embedding returns
predictions and performs no append, matching the select-only source), and a
(session, rule) pair that already has a decayed ledger entry under every
active rule contributes to no projected date; but the projection does not
simulate its own decays: a pair is re-examined against the same ledger for
every offset, so the affected-session count of a later date always
includes every pair counted on an earlier one (it is monotone in the
offset) instead of dropping pairs already projected as decayed. -/
theorem c7_predict_read_only_idempotency (l : Ledger) (today : ℤ)
    (tasks : List Task) (sessions : List Session)
    (rules : List DecayRule) (userId : String) (days : ℕ) (s : Session)
    (pairs : List (DecayRule × Session)) (i j : ℕ)
    (hdec : ∀ r ∈ getActiveDecayRules rules,
      hasDecayedInLedger l userId s.session_id r.rule_id = true)
    (hij : i ≤ j) :
    predictDecay l today tasks (s :: sessions) rules userId days =
      predictDecay l today tasks sessions rules userId days ∧
    (predictDay l today userId pairs i).affectedSessions ≤
      (predictDay l today userId pairs j).affectedSessions := by
  constructor
  · unfold predictDecay
    apply List.map_congr_left
    intro k _
    unfold getUserSessionsForDecay
    rw [List.filter_cons]
    by_cases hkeep : (s.user_id == userId && s.status == ("completed") &&
        decide (0 < s.total_coins) && decide (today - 90 ≤ s.session_date))
    · rw [if_pos (by simpa using hkeep)]
      unfold predictDay
      rw [predictPairs_filter_drop l today userId tasks s (k + 1)
        (getActiveDecayRules rules) _ hdec]
    · rw [if_neg (by simpa using hkeep)]
  · unfold predictDay
    simp only
    rw [← List.countP_eq_length_filter, ← List.countP_eq_length_filter]
    apply List.countP_mono_left
    intro p _ hp
    simp only [predictCounted, Bool.and_eq_true, decide_eq_true_eq] at hp ⊢
    refine ⟨le_trans hp.1 ?_, hp.2⟩
    have : (i : ℤ) ≤ (j : ℤ) := Int.ofNat_le.mpr hij
    omega

/-- Witness for C7 amended: a ledger already holding the decayed entry for
the pair, with offsets 1 and 2. -/
theorem c7_predict_read_only_idempotency_witness :
    predictDecay
      [⟨("u1"), -5, -5, ("decayed"), ("session_decay"), ("sp"), ("d"),
        some ("r5")⟩] 100 []
      (⟨("sp"), ("u1"), ("t1"), 96, ("completed"), 10⟩ :: [])
      [⟨("r5"), ("thr"), 5, 5, ("fixed"), ("all"), none, true, 0, false⟩]
      ("u1") 2 =
      predictDecay
        [⟨("u1"), -5, -5, ("decayed"), ("session_decay"), ("sp"), ("d"),
          some ("r5")⟩] 100 [] []
        [⟨("r5"), ("thr"), 5, 5, ("fixed"), ("all"), none, true, 0,
          false⟩] ("u1") 2 ∧
    (predictDay
      [⟨("u1"), -5, -5, ("decayed"), ("session_decay"), ("sp"), ("d"),
        some ("r5")⟩] 100 ("u1")
      [(⟨("r5"), ("thr"), 5, 5, ("fixed"), ("all"), none, true, 0,
        false⟩, ⟨("sp"), ("u1"), ("t1"), 96, ("completed"), 10⟩)]
      1).affectedSessions ≤
    (predictDay
      [⟨("u1"), -5, -5, ("decayed"), ("session_decay"), ("sp"), ("d"),
        some ("r5")⟩] 100 ("u1")
      [(⟨("r5"), ("thr"), 5, 5, ("fixed"), ("all"), none, true, 0,
        false⟩, ⟨("sp"), ("u1"), ("t1"), 96, ("completed"), 10⟩)]
      2).affectedSessions :=
  c7_predict_read_only_idempotency
    [⟨("u1"), -5, -5, ("decayed"), ("session_decay"), ("sp"), ("d"),
      some ("r5")⟩] 100 [] []
    [⟨("r5"), ("thr"), 5, 5, ("fixed"), ("all"), none, true, 0, false⟩]
    ("u1") 2 ⟨("sp"), ("u1"), ("t1"), 96, ("completed"), 10⟩
    [(⟨("r5"), ("thr"), 5, 5, ("fixed"), ("all"), none, true, 0, false⟩,
      ⟨("sp"), ("u1"), ("t1"), 96, ("completed"), 10⟩)] 1 2
    (by decide) (by decide)

end GrowthBank

